import Mathlib

/-!
Verification of the AAD (adjoint algorithmic differentiation) core of this
repository: the single-output tape of `src/AADTape.h` (class `Tape`, `Node`,
and the `Number` operator overloads), the tape control methods of the
`Tape` implementation file, and the chapter-9 style `Number` of the
second implementation file.

`double` values are modelled as elements of an arbitrary linear ordered
field `K` (instantiated at `ℚ` for executable witnesses and at `ℝ` for the
operations that need `exp`, `log` and real powers): the arithmetic of the
source is translated literally, with exact field arithmetic in place of
floating point.

A C++ pointer `&node.mAdjoint` stored in `pAdjPtrs` always points at the
adjoint slot of a node living on the same tape, so adjoint pointers are
modelled as tape indices, and a pointer write `*p += x` becomes an update
of the adjoint of the indexed node.
-/

namespace AAD

/-- One recorded operation, `struct Node` of the single-output tape:
arity `n`, the eagerly computed local derivatives (`pDerivatives`, length
`n`), the argument adjoint pointers (`pAdjPtrs`, length `n`, modelled as
tape indices), and the node's own scalar adjoint `mAdjoint`.
Modelled from the spec: the header declaring the `Node` data members is
not under `src/`; per the spec's data model and reverse-sweep semantics
the scalar adjoint of a freshly recorded node starts at zero. -/
structure Node (K : Type) where
  n : Nat
  ders : List K
  ptrs : List Nat
  adj : K
deriving DecidableEq

/-- The node storage of a single-output `Tape`, in insertion order. -/
abbrev Tape (K : Type) := List (Node K)

/-- `class Number`: the two data members `myValue` and `myNode`
(the node pointer modelled as the node's tape index). -/
structure Number (K : Type) where
  val : K
  node : Nat
deriving DecidableEq

variable {K : Type} [LinearOrderedField K]

/-- Read the scalar adjoint stored at tape position `p` (`0` off the tape). -/
def adjAt (t : Tape K) (p : Nat) : K :=
  ((t[p]?).map Node.adj).getD 0

/-- The pointer write `*(pAdjPtrs[i]) += x`: add `x` to the adjoint of the
node at tape position `p`; off-tape writes never occur in the source and
are modelled as no-ops. -/
def addAdj (t : Tape K) (p : Nat) (x : K) : Tape K :=
  match t[p]? with
  | none => t
  | some nd => t.set p { nd with adj := nd.adj + x }

/-- `adjoint() = x`: overwrite the adjoint of the node at position `p`. -/
def setAdj (t : Tape K) (p : Nat) (x : K) : Tape K :=
  match t[p]? with
  | none => t
  | some nd => t.set p { nd with adj := x }

/-- The loop of `Node::propagateOne`, iterations listed in execution order:
`*(pAdjPtrs[i]) += pDerivatives[i] * mAdjoint`, where the node's
`mAdjoint` member at position `idx` is read live at every iteration. -/
def propLoop (idx : Nat) (nd : Node K) : List Nat → Tape K → Tape K
  | [], t => t
  | i :: rest, t =>
      propLoop idx nd rest (addAdj t (nd.ptrs.getD i 0) (nd.ders.getD i 0 * adjAt t idx))

/-- `Node::propagateOne` acting on the node at tape position `idx`:
return at once when the arity or the adjoint is zero, else run the
accumulation loop for `i ∈ [0, n)`. -/
def propagateOne (t : Tape K) (idx : Nat) : Tape K :=
  match t[idx]? with
  | none => t
  | some nd => if nd.n = 0 ∨ nd.adj = 0 then t else propLoop idx nd (List.range nd.n) t

/-- The backward walk of `Number::propagateAdjoints`: `k` executions of
`it->propagateOne(); --it;` starting at position `i`. -/
def propagateSteps : Nat → Tape K → Nat → Tape K
  | 0, t, _ => t
  | k + 1, t, i => propagateSteps k (propagateOne t i) (i - 1)

/-- `Number::propagateAdjoints(propagateFrom, propagateTo)`: walk the tape
backward from `fromIdx` to `toIdx`, both inclusive, calling
`propagateOne` on every visited node (`fromIdx + 1 - toIdx` loop
iterations when `toIdx ≤ fromIdx`). -/
def propagateAdjoints (t : Tape K) (fromIdx toIdx : Nat) : Tape K :=
  propagateSteps (fromIdx + 1 - toIdx) t fromIdx

/-- `Number::propagateToStart` called on `y`: set `y`'s adjoint to `1`,
locate `y`'s node on the tape (`tape->find(myNode)`, its index), and
propagate from there down to `tape->begin()` (index `0`). -/
def propagateToStart (t : Tape K) (y : Number K) : Tape K :=
  propagateAdjoints (setAdj t y.node 1) y.node 0

/-! ### Recording operators (`src/AADTape.h`, operator overloading)

Each overload eagerly computes the result value, records one node (arity =
number of `Number` operands) at the back of the tape, and writes the local
derivatives and the argument adjoint pointers into it.  The returned
`Number` carries the value and the index of the new node. -/

/-- `Number::Number(const double)` / assignment from `double`: record a
leaf (arity `0`) node. -/
def recordLeaf (t : Tape K) (x : K) : Tape K × Number K :=
  (t ++ [⟨0, [], [], 0⟩], ⟨x, t.length⟩)

/-- `operator+(Number, Number)`: derivatives `1` and `1`. -/
def addNN (t : Tape K) (l r : Number K) : Tape K × Number K :=
  (t ++ [⟨2, [1, 1], [l.node, r.node], 0⟩], ⟨l.val + r.val, t.length⟩)

/-- `operator+(Number, double)`: unary node, derivative `1`. -/
def addND (t : Tape K) (l : Number K) (c : K) : Tape K × Number K :=
  (t ++ [⟨1, [1], [l.node], 0⟩], ⟨l.val + c, t.length⟩)

/-- `operator+(double, Number)`: the source is literally `return rhs + lhs;`. -/
def addDN (t : Tape K) (c : K) (r : Number K) : Tape K × Number K :=
  addND t r c

/-- `operator-(Number, Number)`: derivatives `1` and `-1`. -/
def subNN (t : Tape K) (l r : Number K) : Tape K × Number K :=
  (t ++ [⟨2, [1, -1], [l.node, r.node], 0⟩], ⟨l.val - r.val, t.length⟩)

/-- `operator-(Number, double)`: unary node, derivative `1`. -/
def subND (t : Tape K) (l : Number K) (c : K) : Tape K × Number K :=
  (t ++ [⟨1, [1], [l.node], 0⟩], ⟨l.val - c, t.length⟩)

/-- `operator-(double, Number)`: unary node, derivative `-1`. -/
def subDN (t : Tape K) (c : K) (r : Number K) : Tape K × Number K :=
  (t ++ [⟨1, [-1], [r.node], 0⟩], ⟨c - r.val, t.length⟩)

/-- `operator*(Number, Number)`: derivatives `rhs.value()` and `lhs.value()`. -/
def mulNN (t : Tape K) (l r : Number K) : Tape K × Number K :=
  (t ++ [⟨2, [r.val, l.val], [l.node, r.node], 0⟩], ⟨l.val * r.val, t.length⟩)

/-- `operator*(Number, double)`: unary node, derivative `rhs`. -/
def mulND (t : Tape K) (l : Number K) (c : K) : Tape K × Number K :=
  (t ++ [⟨1, [c], [l.node], 0⟩], ⟨l.val * c, t.length⟩)

/-- `operator*(double, Number)`: the source is literally `return rhs * lhs;`. -/
def mulDN (t : Tape K) (c : K) (r : Number K) : Tape K × Number K :=
  mulND t r c

/-- `operator/(Number, Number)`: with `invRhs = 1 / rhs.value()`,
derivatives `invRhs` and `-lhs.value() * invRhs * invRhs`. -/
def divNN (t : Tape K) (l r : Number K) : Tape K × Number K :=
  (t ++ [⟨2, [1 / r.val, -l.val * (1 / r.val) * (1 / r.val)], [l.node, r.node], 0⟩],
   ⟨l.val / r.val, t.length⟩)

/-- `operator/(Number, double)`: unary node, derivative `1 / rhs`. -/
def divND (t : Tape K) (l : Number K) (c : K) : Tape K × Number K :=
  (t ++ [⟨1, [1 / c], [l.node], 0⟩], ⟨l.val / c, t.length⟩)

/-- `operator/(double, Number)`: unary node, derivative
`-lhs / rhs.value() / rhs.value()`. -/
def divDN (t : Tape K) (c : K) (r : Number K) : Tape K × Number K :=
  (t ++ [⟨1, [-c / r.val / r.val], [r.node], 0⟩], ⟨c / r.val, t.length⟩)

/-- `max(Number, Number)`: value of the larger operand; derivatives
`(1, 0)` when `lhs.value() > rhs.value()`, else `(0, 1)`. -/
def maxNN (t : Tape K) (l r : Number K) : Tape K × Number K :=
  (t ++ [⟨2, if l.val > r.val then [1, 0] else [0, 1], [l.node, r.node], 0⟩],
   ⟨if l.val > r.val then l.val else r.val, t.length⟩)

/-- `max(Number, double)`. -/
def maxND (t : Tape K) (l : Number K) (c : K) : Tape K × Number K :=
  (t ++ [⟨1, [if l.val > c then 1 else 0], [l.node], 0⟩],
   ⟨if l.val > c then l.val else c, t.length⟩)

/-- `max(double, Number)`. -/
def maxDN (t : Tape K) (c : K) (r : Number K) : Tape K × Number K :=
  (t ++ [⟨1, [if r.val > c then 1 else 0], [r.node], 0⟩],
   ⟨if r.val > c then r.val else c, t.length⟩)

/-- `min(Number, Number)`: value of the smaller operand; derivatives
`(1, 0)` when `lhs.value() < rhs.value()`, else `(0, 1)`. -/
def minNN (t : Tape K) (l r : Number K) : Tape K × Number K :=
  (t ++ [⟨2, if l.val < r.val then [1, 0] else [0, 1], [l.node, r.node], 0⟩],
   ⟨if l.val < r.val then l.val else r.val, t.length⟩)

/-- `min(Number, double)`. -/
def minND (t : Tape K) (l : Number K) (c : K) : Tape K × Number K :=
  (t ++ [⟨1, [if l.val < c then 1 else 0], [l.node], 0⟩],
   ⟨if l.val < c then l.val else c, t.length⟩)

/-- `min(double, Number)`. -/
def minDN (t : Tape K) (c : K) (r : Number K) : Tape K × Number K :=
  (t ++ [⟨1, [if r.val < c then 1 else 0], [r.node], 0⟩],
   ⟨if r.val < c then r.val else c, t.length⟩)

/-- `fabs(Number)`: value `|arg.value()|`, derivative
`arg.value() > 0.0 ? 1.0 : -1.0`. -/
def fabsU (t : Tape K) (a : Number K) : Tape K × Number K :=
  (t ++ [⟨1, [if a.val > 0 then 1 else -1], [a.node], 0⟩], ⟨|a.val|, t.length⟩)

/-- Unary `operator-`: the source is literally `return 0.0 - *this;`. -/
def negU (t : Tape K) (a : Number K) : Tape K × Number K :=
  subDN t 0 a

/-! ### The transcendental overloads, at `K = ℝ` -/

/-- The standard normal density φ.  Modelled from the spec:
`gaussians.h` is not under `src/`; per the spec `normalDens(a)` is φ(a). -/
noncomputable def normalDens (x : ℝ) : ℝ :=
  Real.exp (-(x ^ 2) / 2) / Real.sqrt (2 * Real.pi)

/-- The standard normal cumulative distribution Φ.  Modelled from the
spec: `gaussians.h` is not under `src/`; per the spec `normalCdf(a)` is
Φ(a), the integral of φ up to `a`. -/
noncomputable def normalCdf (x : ℝ) : ℝ :=
  ∫ u in Set.Iic x, normalDens u

/-- `exp(Number)`: value `e = exp(arg.value())`, derivative `e`. -/
noncomputable def expU (t : Tape ℝ) (a : Number ℝ) : Tape ℝ × Number ℝ :=
  (t ++ [⟨1, [Real.exp a.val], [a.node], 0⟩], ⟨Real.exp a.val, t.length⟩)

/-- `log(Number)`: value `log(arg.value())`, derivative `1 / arg.value()`. -/
noncomputable def logU (t : Tape ℝ) (a : Number ℝ) : Tape ℝ × Number ℝ :=
  (t ++ [⟨1, [1 / a.val], [a.node], 0⟩], ⟨Real.log a.val, t.length⟩)

/-- `sqrt(Number)`: value `e = sqrt(arg.value())`, derivative `0.5 / e`. -/
noncomputable def sqrtU (t : Tape ℝ) (a : Number ℝ) : Tape ℝ × Number ℝ :=
  (t ++ [⟨1, [0.5 / Real.sqrt a.val], [a.node], 0⟩], ⟨Real.sqrt a.val, t.length⟩)

/-- `pow(Number, Number)`: value `e = pow(lhs.value(), rhs.value())`,
derivatives `rhs.value() * e / lhs.value()` and `log(lhs.value()) * e`. -/
noncomputable def powNN (t : Tape ℝ) (l r : Number ℝ) : Tape ℝ × Number ℝ :=
  (t ++ [⟨2, [r.val * Real.rpow l.val r.val / l.val, Real.log l.val * Real.rpow l.val r.val],
          [l.node, r.node], 0⟩],
   ⟨Real.rpow l.val r.val, t.length⟩)

/-- `pow(Number, double)`: unary node, derivative `rhs * e / lhs.value()`. -/
noncomputable def powND (t : Tape ℝ) (l : Number ℝ) (c : ℝ) : Tape ℝ × Number ℝ :=
  (t ++ [⟨1, [c * Real.rpow l.val c / l.val], [l.node], 0⟩], ⟨Real.rpow l.val c, t.length⟩)

/-- `pow(double, Number)`: unary node, derivative `log(lhs) * e`. -/
noncomputable def powDN (t : Tape ℝ) (c : ℝ) (r : Number ℝ) : Tape ℝ × Number ℝ :=
  (t ++ [⟨1, [Real.log c * Real.rpow c r.val], [r.node], 0⟩], ⟨Real.rpow c r.val, t.length⟩)

/-- `normalDens(Number)`: value `e = normalDens(arg.value())`, derivative
`-arg.value() * e`. -/
noncomputable def normalDensU (t : Tape ℝ) (a : Number ℝ) : Tape ℝ × Number ℝ :=
  (t ++ [⟨1, [-a.val * normalDens a.val], [a.node], 0⟩], ⟨normalDens a.val, t.length⟩)

/-- `normalCdf(Number)`: value `normalCdf(arg.value())`, derivative
`normalDens(arg.value())`. -/
noncomputable def normalCdfU (t : Tape ℝ) (a : Number ℝ) : Tape ℝ × Number ℝ :=
  (t ++ [⟨1, [normalDens a.val], [a.node], 0⟩], ⟨normalCdf a.val, t.length⟩)

end AAD

namespace Chap9

/-! ### The argument-pointer `Number` implementation (second source file)

This earlier implementation stores, in each recorded node, pointers to the
argument *nodes* (class hierarchy `Leaf` / `UnaryNode` / `BinaryNode`)
together with the local derivatives; each node carries its own adjoint. -/

/-- The chapter-9 node hierarchy.  Modelled from the spec: the header
defining `Leaf`, `UnaryNode`, `BinaryNode` and their `propagate` is not
under `src/`; per the spec a node stores its arity-many argument pointers
(tape indices here) and local derivatives, plus its own adjoint, which
starts at zero. -/
inductive Node9 where
  | leaf (adj : ℝ)
  | unary (arg : Nat) (der : ℝ) (adj : ℝ)
  | binary (arg0 arg1 : Nat) (der0 der1 : ℝ) (adj : ℝ)

/-- The node storage of the chapter-9 tape, in insertion order. -/
abbrev Tape9 := List Node9

/-- The `adjoint` data member. -/
def Node9.adjv : Node9 → ℝ
  | .leaf a => a
  | .unary _ _ a => a
  | .binary _ _ _ _ a => a

/-- `adjoint += x`. -/
def Node9.addAdjv (x : ℝ) : Node9 → Node9
  | .leaf a => .leaf (a + x)
  | .unary p d a => .unary p d (a + x)
  | .binary p0 p1 d0 d1 a => .binary p0 p1 d0 d1 (a + x)

/-- `adjoint = x`. -/
def Node9.setAdjv (x : ℝ) : Node9 → Node9
  | .leaf _ => .leaf x
  | .unary p d _ => .unary p d x
  | .binary p0 p1 d0 d1 _ => .binary p0 p1 d0 d1 x

/-- Read the adjoint of the node at position `p` (`0` off the tape). -/
def adjAt9 (t : Tape9) (p : Nat) : ℝ :=
  ((t[p]?).map Node9.adjv).getD 0

/-- `argument->adjoint += x` for the node at position `p`. -/
def addAdj9 (t : Tape9) (p : Nat) (x : ℝ) : Tape9 :=
  match t[p]? with
  | none => t
  | some nd => t.set p (nd.addAdjv x)

/-- `adjoint() = x` on the node at position `p`. -/
def setAdj9 (t : Tape9) (p : Nat) (x : ℝ) : Tape9 :=
  match t[p]? with
  | none => t
  | some nd => t.set p (nd.setAdjv x)

/-- `Node::propagate` of the chapter-9 hierarchy, acting at position
`idx`.  Modelled from the spec: a leaf propagates nothing; a unary node
adds `derivative * adjoint` into its argument's adjoint; a binary node
does so for both arguments in order, the own-adjoint member being read
before each write. -/
def propagate9 (t : Tape9) (idx : Nat) : Tape9 :=
  match t[idx]? with
  | none => t
  | some (.leaf _) => t
  | some (.unary p d _) => addAdj9 t p (d * adjAt9 t idx)
  | some (.binary p0 p1 d0 d1 _) =>
      addAdj9 (addAdj9 t p0 (d0 * adjAt9 t idx)) p1
        (d1 * adjAt9 (addAdj9 t p0 (d0 * adjAt9 t idx)) idx)

/-- The backward walk of the chapter-9 `propagateAdjoints`: `k` executions
of `it->propagate(); --it;` starting at position `i`. -/
def propagateSteps9 : Nat → Tape9 → Nat → Tape9
  | 0, t, _ => t
  | k + 1, t, i => propagateSteps9 k (propagate9 t i) (i - 1)

/-- Static `Number::propagateAdjoints(propagateFrom, propagateTo)` of the
chapter-9 implementation: backward from `fromIdx` to `toIdx`, both
inclusive. -/
def propagateAdjoints9 (t : Tape9) (fromIdx toIdx : Nat) : Tape9 :=
  propagateSteps9 (fromIdx + 1 - toIdx) t fromIdx

/-- Chapter-9 `Number::propagateToStart()` with `reset = false`: set this
number's adjoint to `1`, find its node and propagate down to `begin()`. -/
def propagateToStart9 (t : Tape9) (y : AAD.Number ℝ) : Tape9 :=
  propagateAdjoints9 (setAdj9 t y.node 1) y.node 0

/-! Recording operators of the chapter-9 `Number` (second source file);
each appends one node carrying the argument indices and the eagerly
computed local derivatives. -/

/-- `explicit Number(double)` / assignment: record a `Leaf`. -/
def recordLeaf9 (t : Tape9) (x : ℝ) : Tape9 × AAD.Number ℝ :=
  (t ++ [.leaf 0], ⟨x, t.length⟩)

/-- `operator+(Number, Number)`. -/
def addNN9 (t : Tape9) (l r : AAD.Number ℝ) : Tape9 × AAD.Number ℝ :=
  (t ++ [.binary l.node r.node 1 1 0], ⟨l.val + r.val, t.length⟩)

/-- `operator+(Number, double)`. -/
def addND9 (t : Tape9) (l : AAD.Number ℝ) (c : ℝ) : Tape9 × AAD.Number ℝ :=
  (t ++ [.unary l.node 1 0], ⟨l.val + c, t.length⟩)

/-- `operator+(double, Number)`: literally `return rhs + lhs;`. -/
def addDN9 (t : Tape9) (c : ℝ) (r : AAD.Number ℝ) : Tape9 × AAD.Number ℝ :=
  addND9 t r c

/-- `operator-(Number, Number)`. -/
def subNN9 (t : Tape9) (l r : AAD.Number ℝ) : Tape9 × AAD.Number ℝ :=
  (t ++ [.binary l.node r.node 1 (-1) 0], ⟨l.val - r.val, t.length⟩)

/-- `operator-(Number, double)`. -/
def subND9 (t : Tape9) (l : AAD.Number ℝ) (c : ℝ) : Tape9 × AAD.Number ℝ :=
  (t ++ [.unary l.node 1 0], ⟨l.val - c, t.length⟩)

/-- `operator-(double, Number)`. -/
def subDN9 (t : Tape9) (c : ℝ) (r : AAD.Number ℝ) : Tape9 × AAD.Number ℝ :=
  (t ++ [.unary r.node (-1) 0], ⟨c - r.val, t.length⟩)

/-- `operator*(Number, Number)`. -/
def mulNN9 (t : Tape9) (l r : AAD.Number ℝ) : Tape9 × AAD.Number ℝ :=
  (t ++ [.binary l.node r.node r.val l.val 0], ⟨l.val * r.val, t.length⟩)

/-- `operator*(Number, double)`. -/
def mulND9 (t : Tape9) (l : AAD.Number ℝ) (c : ℝ) : Tape9 × AAD.Number ℝ :=
  (t ++ [.unary l.node c 0], ⟨l.val * c, t.length⟩)

/-- `operator*(double, Number)`: literally `return rhs * lhs;`. -/
def mulDN9 (t : Tape9) (c : ℝ) (r : AAD.Number ℝ) : Tape9 × AAD.Number ℝ :=
  mulND9 t r c

/-- `operator/(Number, Number)`: derivatives `1.0 * invRhs` and
`-lhs.value() * invRhs * invRhs`. -/
noncomputable def divNN9 (t : Tape9) (l r : AAD.Number ℝ) : Tape9 × AAD.Number ℝ :=
  (t ++ [.binary l.node r.node (1 * (1 / r.val)) (-l.val * (1 / r.val) * (1 / r.val)) 0],
   ⟨l.val / r.val, t.length⟩)

/-- `operator/(Number, double)`. -/
noncomputable def divND9 (t : Tape9) (l : AAD.Number ℝ) (c : ℝ) : Tape9 × AAD.Number ℝ :=
  (t ++ [.unary l.node (1 / c) 0], ⟨l.val / c, t.length⟩)

/-- `operator/(double, Number)`. -/
noncomputable def divDN9 (t : Tape9) (c : ℝ) (r : AAD.Number ℝ) : Tape9 × AAD.Number ℝ :=
  (t ++ [.unary r.node (-c / r.val / r.val) 0], ⟨c / r.val, t.length⟩)

/-- `pow(Number, Number)`. -/
noncomputable def powNN9 (t : Tape9) (l r : AAD.Number ℝ) : Tape9 × AAD.Number ℝ :=
  (t ++ [.binary l.node r.node (r.val * Real.rpow l.val r.val / l.val)
          (Real.log l.val * Real.rpow l.val r.val) 0],
   ⟨Real.rpow l.val r.val, t.length⟩)

/-- `pow(Number, double)`. -/
noncomputable def powND9 (t : Tape9) (l : AAD.Number ℝ) (c : ℝ) : Tape9 × AAD.Number ℝ :=
  (t ++ [.unary l.node (c * Real.rpow l.val c / l.val) 0], ⟨Real.rpow l.val c, t.length⟩)

/-- `pow(double, Number)`. -/
noncomputable def powDN9 (t : Tape9) (c : ℝ) (r : AAD.Number ℝ) : Tape9 × AAD.Number ℝ :=
  (t ++ [.unary r.node (Real.log c * Real.rpow c r.val) 0], ⟨Real.rpow c r.val, t.length⟩)

/-- `max(Number, Number)`: value `max(lhs.value(), rhs.value())`. -/
noncomputable def maxNN9 (t : Tape9) (l r : AAD.Number ℝ) : Tape9 × AAD.Number ℝ :=
  (t ++ [if l.val > r.val then Node9.binary l.node r.node 1 0 0
         else Node9.binary l.node r.node 0 1 0],
   ⟨max l.val r.val, t.length⟩)

/-- `max(Number, double)`. -/
noncomputable def maxND9 (t : Tape9) (l : AAD.Number ℝ) (c : ℝ) : Tape9 × AAD.Number ℝ :=
  (t ++ [.unary l.node (if l.val > c then 1 else 0) 0], ⟨max l.val c, t.length⟩)

/-- `max(double, Number)`. -/
noncomputable def maxDN9 (t : Tape9) (c : ℝ) (r : AAD.Number ℝ) : Tape9 × AAD.Number ℝ :=
  (t ++ [.unary r.node (if r.val > c then 1 else 0) 0], ⟨max c r.val, t.length⟩)

/-- `min(Number, Number)`: value `min(lhs.value(), rhs.value())`. -/
noncomputable def minNN9 (t : Tape9) (l r : AAD.Number ℝ) : Tape9 × AAD.Number ℝ :=
  (t ++ [if l.val < r.val then Node9.binary l.node r.node 1 0 0
         else Node9.binary l.node r.node 0 1 0],
   ⟨min l.val r.val, t.length⟩)

/-- `min(Number, double)`. -/
noncomputable def minND9 (t : Tape9) (l : AAD.Number ℝ) (c : ℝ) : Tape9 × AAD.Number ℝ :=
  (t ++ [.unary l.node (if l.val < c then 1 else 0) 0], ⟨min l.val c, t.length⟩)

/-- `min(double, Number)`. -/
noncomputable def minDN9 (t : Tape9) (c : ℝ) (r : AAD.Number ℝ) : Tape9 × AAD.Number ℝ :=
  (t ++ [.unary r.node (if r.val < c then 1 else 0) 0], ⟨min c r.val, t.length⟩)

/-- `exp(Number)`. -/
noncomputable def expU9 (t : Tape9) (a : AAD.Number ℝ) : Tape9 × AAD.Number ℝ :=
  (t ++ [.unary a.node (Real.exp a.val) 0], ⟨Real.exp a.val, t.length⟩)

/-- `log(Number)`. -/
noncomputable def logU9 (t : Tape9) (a : AAD.Number ℝ) : Tape9 × AAD.Number ℝ :=
  (t ++ [.unary a.node (1 / a.val) 0], ⟨Real.log a.val, t.length⟩)

/-- `sqrt(Number)`. -/
noncomputable def sqrtU9 (t : Tape9) (a : AAD.Number ℝ) : Tape9 × AAD.Number ℝ :=
  (t ++ [.unary a.node (0.5 / Real.sqrt a.val) 0], ⟨Real.sqrt a.val, t.length⟩)

/-- `fabs(Number)`. -/
noncomputable def fabsU9 (t : Tape9) (a : AAD.Number ℝ) : Tape9 × AAD.Number ℝ :=
  (t ++ [.unary a.node (if a.val > 0 then 1 else -1) 0], ⟨|a.val|, t.length⟩)

/-- `normalDens(Number)`. -/
noncomputable def normalDensU9 (t : Tape9) (a : AAD.Number ℝ) : Tape9 × AAD.Number ℝ :=
  (t ++ [.unary a.node (-a.val * AAD.normalDens a.val) 0], ⟨AAD.normalDens a.val, t.length⟩)

/-- `normalCdf(Number)`. -/
noncomputable def normalCdfU9 (t : Tape9) (a : AAD.Number ℝ) : Tape9 × AAD.Number ℝ :=
  (t ++ [.unary a.node (AAD.normalDens a.val) 0], ⟨AAD.normalCdf a.val, t.length⟩)

/-- Unary `operator-`: literally `return 0.0 - *this;`. -/
def negU9 (t : Tape9) (a : AAD.Number ℝ) : Tape9 × AAD.Number ℝ :=
  subDN9 t 0 a

end Chap9

namespace TapeMarks

/-! ### The tape control methods `mark` and `rewindToMark` -/

/-- Cursor state of one `blocklist`.  Modelled from the spec:
`blocklist.h` is not under `src/`; per the spec a block-list carries a
(block, slot) cursor, abstracted here to one logical position, and a saved
mark; `setmark` saves the cursor into the mark and `rewind_to_mark`
restores the cursor from the mark. -/
structure BlockList where
  cursor : Nat
  markPos : Nat
deriving DecidableEq

/-- `blocklist::setmark`: save the cursor. -/
def BlockList.setmark (b : BlockList) : BlockList :=
  { b with markPos := b.cursor }

/-- `blocklist::rewind_to_mark`: restore the cursor. -/
def BlockList.rewindToMark (b : BlockList) : BlockList :=
  { b with cursor := b.markPos }

/-- The four block-lists composed by the `Tape`
(`myAdjointsMulti`, `myDers`, `myArgPtrs`, `myNodes`) together with the
static `multi` flag. -/
structure TapeSt where
  multi : Bool
  adjointsMulti : BlockList
  ders : BlockList
  argPtrs : BlockList
  nodes : BlockList
deriving DecidableEq

/-- `Tape::mark` (tape implementation file): `setmark` on
`myAdjointsMulti` only when `multi`, then on `myDers`, `myArgPtrs` and
`myNodes` unconditionally. -/
def TapeSt.mark (t : TapeSt) : TapeSt :=
  { t with
    adjointsMulti := if t.multi then t.adjointsMulti.setmark else t.adjointsMulti
    ders := t.ders.setmark
    argPtrs := t.argPtrs.setmark
    nodes := t.nodes.setmark }

/-- `Tape::rewindToMark` (tape implementation file): `rewind_to_mark` on
`myAdjointsMulti` only when `multi`, then on `myDers`, `myArgPtrs` and
`myNodes` unconditionally. -/
def TapeSt.rewindToMark (t : TapeSt) : TapeSt :=
  { t with
    adjointsMulti := if t.multi then t.adjointsMulti.rewindToMark else t.adjointsMulti
    ders := t.ders.rewindToMark
    argPtrs := t.argPtrs.rewindToMark
    nodes := t.nodes.rewindToMark }

end TapeMarks

namespace Ctor

/-! ### Default construction of a `Number` -/

/-- The raw storage contents of a `Number`: `myValue` and `myNode`
(`none` standing for a null node pointer). -/
structure RawNumber (K : Type) where
  val : K
  node : Option Nat
deriving DecidableEq

/-- `Number::Number() {}`: the default constructor has an empty body and
no member initializers, so both members keep whatever indeterminate
contents the storage already held, and nothing is recorded on the thread
tape.  Modelled as a function of the prior storage contents and of the
tape, returning both unchanged. -/
def defaultCtor {K : Type} (pre : RawNumber K) (t : AAD.Tape K) :
    RawNumber K × AAD.Tape K :=
  (pre, t)

end Ctor

namespace AAD

variable {K : Type} [LinearOrderedField K]

/-- The list of tape positions visited by
`propagateAdjoints(fromIdx, toIdx)`, in execution order:
`fromIdx, fromIdx - 1, …, toIdx`. -/
def revRange (fromIdx toIdx : Nat) : List Nat :=
  (List.range (fromIdx + 1 - toIdx)).map (fromIdx - ·)

/-- Multiply every adjoint on the tape by `c`, leaving arities,
derivatives and argument pointers unchanged. -/
def scaleAdj (c : K) (t : Tape K) : Tape K :=
  t.map (fun m => { m with adj := c * m.adj })

/-! ### The concrete scenario of spec §8: `x = 3`, `y = x*x + 2*x + 1`

Recorded at `K = ℚ` so that the whole pipeline evaluates by `decide`;
every operation is the literal translation of the overload the C++
expression resolves to. -/

/-- `Number x(3.0);` on a fresh tape. -/
def c1Step0 : Tape ℚ × Number ℚ := recordLeaf [] 3

/-- The leaf `x`. -/
def c1x : Number ℚ := c1Step0.2

/-- `x * x` (Number ∗ Number). -/
def c1Step1 : Tape ℚ × Number ℚ := mulNN c1Step0.1 c1x c1x

/-- `2 * x` (double ∗ Number). -/
def c1Step2 : Tape ℚ × Number ℚ := mulDN c1Step1.1 2 c1x

/-- `x*x + 2*x` (Number + Number). -/
def c1Step3 : Tape ℚ × Number ℚ := addNN c1Step2.1 c1Step1.2 c1Step2.2

/-- `y = x*x + 2*x + 1` (Number + double). -/
def c1Step4 : Tape ℚ × Number ℚ := addND c1Step3.1 c1Step3.2 1

/-- The result `y`. -/
def c1y : Number ℚ := c1Step4.2

/-- The tape after `y.propagateToStart()`. -/
def c1Swept : Tape ℚ := propagateToStart c1Step4.1 c1y

/-! Concrete tapes used by the closed witnesses of the quantified claims. -/

/-- A three-node demonstration tape: a leaf and two unary nodes chained
onto it. -/
def demoTape : Tape ℚ :=
  [⟨0, [], [], 0⟩, ⟨1, [2], [0], 0⟩, ⟨1, [3], [1], 0⟩]

/-- A demonstration tape whose top node carries a nonzero adjoint. -/
def demoTapeLive : Tape ℚ :=
  [⟨0, [], [], 0⟩, ⟨1, [2], [0], 3⟩]

/-- The top node of `demoTapeLive`. -/
def demoNode : Node ℚ := ⟨1, [2], [0], 3⟩

end AAD

namespace Refine

/-!  ### Refinement between the two `Number` implementations

An expression grammar covering the operator set supported by both
implementations; `var`/`letE` give let-bound sharing of subexpressions,
so recorded graphs may be genuine DAGs, as in user code that reuses a
`Number` variable. -/

/-- Expressions over the shared operator set: leaves (construction of a
`Number` from a double), let-bound sharing, the `Number⊕Number`,
`Number⊕double` and `double⊕Number` arithmetic operators, `pow`, `max`,
`min`, the supported unary functions, and unary minus. -/
inductive Expr where
  | leaf (x : ℝ)
  | var (i : Nat)
  | letE (bound body : Expr)
  | addNN (a b : Expr)
  | addND (a : Expr) (c : ℝ)
  | addDN (c : ℝ) (b : Expr)
  | subNN (a b : Expr)
  | subND (a : Expr) (c : ℝ)
  | subDN (c : ℝ) (b : Expr)
  | mulNN (a b : Expr)
  | mulND (a : Expr) (c : ℝ)
  | mulDN (c : ℝ) (b : Expr)
  | divNN (a b : Expr)
  | divND (a : Expr) (c : ℝ)
  | divDN (c : ℝ) (b : Expr)
  | powNN (a b : Expr)
  | powND (a : Expr) (c : ℝ)
  | powDN (c : ℝ) (b : Expr)
  | maxNN (a b : Expr)
  | maxND (a : Expr) (c : ℝ)
  | maxDN (c : ℝ) (b : Expr)
  | minNN (a b : Expr)
  | minND (a : Expr) (c : ℝ)
  | minDN (c : ℝ) (b : Expr)
  | expU (a : Expr)
  | logU (a : Expr)
  | sqrtU (a : Expr)
  | fabsU (a : Expr)
  | normalDensU (a : Expr)
  | normalCdfU (a : Expr)
  | negU (a : Expr)

/-- Forward recording with the adjoint-pointer implementation of
`src/AADTape.h`: `env` maps let-bound variables (de Bruijn indices) to
already recorded `Number`s; each operator case first records its left
operand, then its right operand, then the operation itself. -/
noncomputable def evalA : Expr → List (AAD.Number ℝ) → AAD.Tape ℝ → AAD.Tape ℝ × AAD.Number ℝ
  | .leaf x, _, t => AAD.recordLeaf t x
  | .var i, env, t => (t, env.getD i ⟨0, 0⟩)
  | .letE b e, env, t => evalA e ((evalA b env t).2 :: env) (evalA b env t).1
  | .addNN a b, env, t =>
      AAD.addNN (evalA b env (evalA a env t).1).1 (evalA a env t).2
        (evalA b env (evalA a env t).1).2
  | .addND a c, env, t => AAD.addND (evalA a env t).1 (evalA a env t).2 c
  | .addDN c b, env, t => AAD.addDN (evalA b env t).1 c (evalA b env t).2
  | .subNN a b, env, t =>
      AAD.subNN (evalA b env (evalA a env t).1).1 (evalA a env t).2
        (evalA b env (evalA a env t).1).2
  | .subND a c, env, t => AAD.subND (evalA a env t).1 (evalA a env t).2 c
  | .subDN c b, env, t => AAD.subDN (evalA b env t).1 c (evalA b env t).2
  | .mulNN a b, env, t =>
      AAD.mulNN (evalA b env (evalA a env t).1).1 (evalA a env t).2
        (evalA b env (evalA a env t).1).2
  | .mulND a c, env, t => AAD.mulND (evalA a env t).1 (evalA a env t).2 c
  | .mulDN c b, env, t => AAD.mulDN (evalA b env t).1 c (evalA b env t).2
  | .divNN a b, env, t =>
      AAD.divNN (evalA b env (evalA a env t).1).1 (evalA a env t).2
        (evalA b env (evalA a env t).1).2
  | .divND a c, env, t => AAD.divND (evalA a env t).1 (evalA a env t).2 c
  | .divDN c b, env, t => AAD.divDN (evalA b env t).1 c (evalA b env t).2
  | .powNN a b, env, t =>
      AAD.powNN (evalA b env (evalA a env t).1).1 (evalA a env t).2
        (evalA b env (evalA a env t).1).2
  | .powND a c, env, t => AAD.powND (evalA a env t).1 (evalA a env t).2 c
  | .powDN c b, env, t => AAD.powDN (evalA b env t).1 c (evalA b env t).2
  | .maxNN a b, env, t =>
      AAD.maxNN (evalA b env (evalA a env t).1).1 (evalA a env t).2
        (evalA b env (evalA a env t).1).2
  | .maxND a c, env, t => AAD.maxND (evalA a env t).1 (evalA a env t).2 c
  | .maxDN c b, env, t => AAD.maxDN (evalA b env t).1 c (evalA b env t).2
  | .minNN a b, env, t =>
      AAD.minNN (evalA b env (evalA a env t).1).1 (evalA a env t).2
        (evalA b env (evalA a env t).1).2
  | .minND a c, env, t => AAD.minND (evalA a env t).1 (evalA a env t).2 c
  | .minDN c b, env, t => AAD.minDN (evalA b env t).1 c (evalA b env t).2
  | .expU a, env, t => AAD.expU (evalA a env t).1 (evalA a env t).2
  | .logU a, env, t => AAD.logU (evalA a env t).1 (evalA a env t).2
  | .sqrtU a, env, t => AAD.sqrtU (evalA a env t).1 (evalA a env t).2
  | .fabsU a, env, t => AAD.fabsU (evalA a env t).1 (evalA a env t).2
  | .normalDensU a, env, t => AAD.normalDensU (evalA a env t).1 (evalA a env t).2
  | .normalCdfU a, env, t => AAD.normalCdfU (evalA a env t).1 (evalA a env t).2
  | .negU a, env, t => AAD.negU (evalA a env t).1 (evalA a env t).2

/-- Forward recording with the argument-pointer implementation of the
second source file, same environment discipline and evaluation order. -/
noncomputable def evalB : Expr → List (AAD.Number ℝ) → Chap9.Tape9 → Chap9.Tape9 × AAD.Number ℝ
  | .leaf x, _, t => Chap9.recordLeaf9 t x
  | .var i, env, t => (t, env.getD i ⟨0, 0⟩)
  | .letE b e, env, t => evalB e ((evalB b env t).2 :: env) (evalB b env t).1
  | .addNN a b, env, t =>
      Chap9.addNN9 (evalB b env (evalB a env t).1).1 (evalB a env t).2
        (evalB b env (evalB a env t).1).2
  | .addND a c, env, t => Chap9.addND9 (evalB a env t).1 (evalB a env t).2 c
  | .addDN c b, env, t => Chap9.addDN9 (evalB b env t).1 c (evalB b env t).2
  | .subNN a b, env, t =>
      Chap9.subNN9 (evalB b env (evalB a env t).1).1 (evalB a env t).2
        (evalB b env (evalB a env t).1).2
  | .subND a c, env, t => Chap9.subND9 (evalB a env t).1 (evalB a env t).2 c
  | .subDN c b, env, t => Chap9.subDN9 (evalB b env t).1 c (evalB b env t).2
  | .mulNN a b, env, t =>
      Chap9.mulNN9 (evalB b env (evalB a env t).1).1 (evalB a env t).2
        (evalB b env (evalB a env t).1).2
  | .mulND a c, env, t => Chap9.mulND9 (evalB a env t).1 (evalB a env t).2 c
  | .mulDN c b, env, t => Chap9.mulDN9 (evalB b env t).1 c (evalB b env t).2
  | .divNN a b, env, t =>
      Chap9.divNN9 (evalB b env (evalB a env t).1).1 (evalB a env t).2
        (evalB b env (evalB a env t).1).2
  | .divND a c, env, t => Chap9.divND9 (evalB a env t).1 (evalB a env t).2 c
  | .divDN c b, env, t => Chap9.divDN9 (evalB b env t).1 c (evalB b env t).2
  | .powNN a b, env, t =>
      Chap9.powNN9 (evalB b env (evalB a env t).1).1 (evalB a env t).2
        (evalB b env (evalB a env t).1).2
  | .powND a c, env, t => Chap9.powND9 (evalB a env t).1 (evalB a env t).2 c
  | .powDN c b, env, t => Chap9.powDN9 (evalB b env t).1 c (evalB b env t).2
  | .maxNN a b, env, t =>
      Chap9.maxNN9 (evalB b env (evalB a env t).1).1 (evalB a env t).2
        (evalB b env (evalB a env t).1).2
  | .maxND a c, env, t => Chap9.maxND9 (evalB a env t).1 (evalB a env t).2 c
  | .maxDN c b, env, t => Chap9.maxDN9 (evalB b env t).1 c (evalB b env t).2
  | .minNN a b, env, t =>
      Chap9.minNN9 (evalB b env (evalB a env t).1).1 (evalB a env t).2
        (evalB b env (evalB a env t).1).2
  | .minND a c, env, t => Chap9.minND9 (evalB a env t).1 (evalB a env t).2 c
  | .minDN c b, env, t => Chap9.minDN9 (evalB b env t).1 c (evalB b env t).2
  | .expU a, env, t => Chap9.expU9 (evalB a env t).1 (evalB a env t).2
  | .logU a, env, t => Chap9.logU9 (evalB a env t).1 (evalB a env t).2
  | .sqrtU a, env, t => Chap9.sqrtU9 (evalB a env t).1 (evalB a env t).2
  | .fabsU a, env, t => Chap9.fabsU9 (evalB a env t).1 (evalB a env t).2
  | .normalDensU a, env, t => Chap9.normalDensU9 (evalB a env t).1 (evalB a env t).2
  | .normalCdfU a, env, t => Chap9.normalCdfU9 (evalB a env t).1 (evalB a env t).2
  | .negU a, env, t => Chap9.negU9 (evalB a env t).1 (evalB a env t).2

/-- The refinement map on nodes: a chapter-9 node corresponds to the
adjoint-pointer node with the same arity, derivatives, argument indices
and adjoint. -/
def abstr : Chap9.Node9 → AAD.Node ℝ
  | .leaf a => ⟨0, [], [], a⟩
  | .unary p d a => ⟨1, [d], [p], a⟩
  | .binary p0 p1 d0 d1 a => ⟨2, [d0, d1], [p0, p1], a⟩

/-- The refinement map on tapes. -/
def abstrT (t : Chap9.Tape9) : AAD.Tape ℝ :=
  t.map abstr

end Refine

/-! ## Theorems -/

namespace AAD

variable {K : Type} [LinearOrderedField K]

theorem getElem?_addAdj (t : Tape K) (p : Nat) (x : K) (q : Nat) :
    (addAdj t p x)[q]? =
      if q = p then (t[p]?).map (fun m => { m with adj := m.adj + x }) else t[q]? := by
  unfold addAdj
  split
  · next h =>
    by_cases hq : q = p
    · subst hq; simp [h]
    · simp [hq]
  · next nd h =>
    have hp : p < t.length := by
      by_contra hc
      rw [List.getElem?_eq_none (Nat.le_of_not_lt hc)] at h
      exact Option.noConfusion h
    rw [List.getElem?_set]
    by_cases hq : q = p
    · subst hq; simp [hp, h]
    · have hq' : p ≠ q := fun hh => hq hh.symm
      simp [hq, hq']

theorem length_addAdj (t : Tape K) (p : Nat) (x : K) :
    (addAdj t p x).length = t.length := by
  unfold addAdj
  split
  · rfl
  · exact List.length_set ..

theorem adjAt_addAdj_ne (t : Tape K) {p q : Nat} (h : q ≠ p) (x : K) :
    adjAt (addAdj t p x) q = adjAt t q := by
  simp [adjAt, getElem?_addAdj, h]

theorem structAt_addAdj (t : Tape K) (p : Nat) (x : K) (q : Nat) :
    ((addAdj t p x)[q]?).map (fun m => (m.n, m.ders, m.ptrs))
      = (t[q]?).map (fun m => (m.n, m.ders, m.ptrs)) := by
  rw [getElem?_addAdj]
  by_cases hq : q = p
  · subst hq; cases t[q]? <;> simp
  · simp [hq]

theorem adjAt_of_getElem? {t : Tape K} {idx : Nat} {nd : Node K}
    (h : t[idx]? = some nd) : adjAt t idx = nd.adj := by
  simp [adjAt, h]

theorem propLoop_getElem?_adj (idx : Nat) (nd : Node K) (l : List Nat) (t : Tape K)
    (hne : ∀ i ∈ l, nd.ptrs.getD i 0 ≠ idx) (hadj : adjAt t idx = nd.adj) (q : Nat) :
    ((propLoop idx nd l t)[q]?).map Node.adj
      = (t[q]?).map (fun m =>
          m.adj + (l.map fun i =>
            if nd.ptrs.getD i 0 = q then nd.ders.getD i 0 * nd.adj else 0).sum) := by
  induction l generalizing t with
  | nil => cases h : t[q]? <;> simp [propLoop, h]
  | cons i rest ih =>
    have hi : nd.ptrs.getD i 0 ≠ idx := hne i (List.mem_cons_self i rest)
    have hadj' : adjAt (addAdj t (nd.ptrs.getD i 0) (nd.ders.getD i 0 * nd.adj)) idx
        = nd.adj := by
      rw [adjAt_addAdj_ne t (fun h => hi h.symm), hadj]
    simp only [propLoop, hadj]
    rw [ih _ (fun j hj => hne j (List.mem_cons_of_mem i hj)) hadj']
    rw [getElem?_addAdj]
    by_cases hq : q = nd.ptrs.getD i 0
    · subst hq
      cases h : t[nd.ptrs.getD i 0]? <;> simp [List.map_cons, add_assoc]
    · have hq' : nd.ptrs.getD i 0 ≠ q := fun hh => hq hh.symm
      simp only [List.map_cons, List.sum_cons, if_neg hq, if_neg hq', zero_add]

theorem propLoop_structAt (idx : Nat) (nd : Node K) (l : List Nat) (t : Tape K) (q : Nat) :
    ((propLoop idx nd l t)[q]?).map (fun m => (m.n, m.ders, m.ptrs))
      = (t[q]?).map (fun m => (m.n, m.ders, m.ptrs)) := by
  induction l generalizing t with
  | nil => rfl
  | cons i rest ih => rw [propLoop, ih, structAt_addAdj]

/-- C2: `Node::propagateOne` in single-output mode: when the node's arity
is zero or its own scalar adjoint is zero it returns without performing
any write; otherwise every tape position `q` receives, added into its
adjoint, `derivatives[i] * own_adjoint` for exactly those `i < n` whose
`arg_adjoints[i]` points at `q`; the node's own adjoint is not modified,
nor is any node's arity, derivative list or pointer list.  The hypothesis
that no argument pointer refers to the node itself is the spec's
tape-ordering invariant (arguments are strictly earlier on the tape). -/
theorem c2_propagateOne_spec (t : Tape K) (idx q : Nat) (nd : Node K)
    (hnd : t[idx]? = some nd)
    (hself : ∀ i < nd.n, nd.ptrs.getD i 0 ≠ idx) :
    (nd.n = 0 ∨ nd.adj = 0 → propagateOne t idx = t)
    ∧ ((propagateOne t idx)[q]?).map Node.adj
        = (t[q]?).map (fun m =>
            m.adj + ((List.range nd.n).map fun i =>
              if nd.ptrs.getD i 0 = q then nd.ders.getD i 0 * nd.adj else 0).sum)
    ∧ adjAt (propagateOne t idx) idx = nd.adj
    ∧ ((propagateOne t idx)[q]?).map (fun m => (m.n, m.ders, m.ptrs))
        = (t[q]?).map (fun m => (m.n, m.ders, m.ptrs)) := by
  have hne : ∀ i ∈ List.range nd.n, nd.ptrs.getD i 0 ≠ idx := by
    intro i hi
    exact hself i (List.mem_range.mp hi)
  by_cases hskip : nd.n = 0 ∨ nd.adj = 0
  · have heq : propagateOne t idx = t := by
      unfold propagateOne
      rw [hnd]
      simp [hskip]
    have hsum : ((List.range nd.n).map fun i =>
        if nd.ptrs.getD i 0 = q then nd.ders.getD i 0 * nd.adj else 0).sum = 0 := by
      rcases hskip with h0 | h0
      · simp [h0]
      · simp [h0]
    refine ⟨fun _ => heq, ?_, ?_, ?_⟩
    · rw [heq, hsum]
      cases t[q]? <;> simp
    · rw [heq]
      exact adjAt_of_getElem? hnd
    · rw [heq]
  · have hgo : propagateOne t idx = propLoop idx nd (List.range nd.n) t := by
      unfold propagateOne
      rw [hnd]
      simp [hskip]
    have hadj : adjAt t idx = nd.adj := adjAt_of_getElem? hnd
    have hmain := propLoop_getElem?_adj idx nd (List.range nd.n) t hne hadj
    refine ⟨fun h => absurd h hskip, ?_, ?_, ?_⟩
    · rw [hgo]
      exact hmain q
    · rw [hgo]
      have hz : ((List.range nd.n).map fun i =>
          if nd.ptrs.getD i 0 = idx then nd.ders.getD i 0 * nd.adj else 0).sum = 0 := by
        apply List.sum_eq_zero
        intro x hx
        rw [List.mem_map] at hx
        obtain ⟨i, hi, rfl⟩ := hx
        exact if_neg (hne i hi)
      have h2 := hmain idx
      rw [hnd] at h2
      unfold adjAt
      rw [h2]
      simp only [Option.map_some', Option.getD_some]
      rw [hz, add_zero]
    · rw [hgo]
      exact propLoop_structAt idx nd (List.range nd.n) t q

/-- Closed witness for C2: the two-node tape `demoTapeLive` with its top
node carrying adjoint `3`, propagated at position `1`, inspected at
position `0`. -/
theorem c2_propagateOne_spec_witness :
    (demoTapeLive[1]? = some demoNode)
    ∧ (∀ i < demoNode.n, demoNode.ptrs.getD i 0 ≠ 1)
    ∧ ((demoNode.n = 0 ∨ demoNode.adj = 0 → propagateOne demoTapeLive 1 = demoTapeLive)
       ∧ ((propagateOne demoTapeLive 1)[0]?).map Node.adj
           = (demoTapeLive[0]?).map (fun m =>
               m.adj + ((List.range demoNode.n).map fun i =>
                 if demoNode.ptrs.getD i 0 = 0 then demoNode.ders.getD i 0 * demoNode.adj
                 else 0).sum)
       ∧ adjAt (propagateOne demoTapeLive 1) 1 = demoNode.adj
       ∧ ((propagateOne demoTapeLive 1)[0]?).map (fun m => (m.n, m.ders, m.ptrs))
           = (demoTapeLive[0]?).map (fun m => (m.n, m.ders, m.ptrs))) :=
  ⟨rfl, by decide, c2_propagateOne_spec demoTapeLive 1 0 demoNode rfl (by decide)⟩

theorem propagateSteps_eq_foldl (k : Nat) : ∀ (t : Tape K) (i : Nat),
    propagateSteps k t i = ((List.range k).map (i - ·)).foldl propagateOne t := by
  induction k with
  | zero =>
    intro t i
    rfl
  | succ k ih =>
    intro t i
    rw [propagateSteps, ih, List.range_succ_eq_map]
    simp only [List.map_cons, List.map_map, List.foldl_cons, Nat.sub_zero]
    congr 1
    apply List.map_congr_left
    intro a _
    simp only [Function.comp_apply]
    omega

/-- C3: `propagateAdjoints(from, to)` with `to ≤ from` invokes
`propagateOne` on exactly the tape positions `from, from - 1, …, to`, in
that strictly decreasing order, both endpoints included (so for
`from = to` exactly that one node is propagated). -/
theorem c3_propagateAdjoints_walk (t : Tape K) (fromIdx toIdx i : Nat)
    (h : toIdx ≤ fromIdx) :
    propagateAdjoints t fromIdx toIdx = (revRange fromIdx toIdx).foldl propagateOne t
    ∧ List.Pairwise (fun a b => b < a) (revRange fromIdx toIdx)
    ∧ (i ∈ revRange fromIdx toIdx ↔ toIdx ≤ i ∧ i ≤ fromIdx) := by
  refine ⟨propagateSteps_eq_foldl _ t fromIdx, ?_, ?_⟩
  · rw [revRange, List.pairwise_map]
    refine (List.pairwise_lt_range _).imp_of_mem ?_
    intro a b ha hb hab
    rw [List.mem_range] at ha hb
    omega
  · rw [revRange]
    simp only [List.mem_map, List.mem_range]
    constructor
    · rintro ⟨k, hk, rfl⟩
      omega
    · rintro ⟨h1, h2⟩
      exact ⟨fromIdx - i, by omega, by omega⟩

/-- Closed witness for C3 at `from = 2`, `to = 0`, `i = 1`, on the
three-node tape `demoTape`. -/
theorem c3_propagateAdjoints_walk_witness :
    ((0 : Nat) ≤ 2)
    ∧ (propagateAdjoints demoTape 2 0 = (revRange 2 0).foldl propagateOne demoTape
       ∧ List.Pairwise (fun a b => b < a) (revRange 2 0)
       ∧ (1 ∈ revRange 2 0 ↔ 0 ≤ 1 ∧ 1 ≤ 2)) :=
  ⟨by decide, c3_propagateAdjoints_walk demoTape 2 0 1 (by decide)⟩

/-- C1: on a fresh single-output-mode tape, recording the leaf `x = 3`
and building `y = x*x + 2*x + 1` through the overloaded operators,
then calling `y.propagateToStart()`, gives `y.value() = 16` and
`x.adjoint() = 8`. -/
theorem c1_quadratic_scenario : c1y.val = 16 ∧ adjAt c1Swept c1x.node = 8 := by
  constructor
  · norm_num [c1y, c1Step4, c1Step3, c1Step2, c1Step1, c1Step0, c1x, addND, addNN,
      mulDN, mulND, mulNN, recordLeaf]
  · norm_num [c1Swept, c1y, c1x, c1Step4, c1Step3, c1Step2, c1Step1, c1Step0, addND,
      addNN, mulDN, mulND, mulNN, recordLeaf, propagateToStart, propagateAdjoints,
      propagateSteps, propagateOne, propLoop, addAdj, setAdj, adjAt, List.range_succ]

/-- C4: `operator/` records value `a/b` and a binary node with local
derivatives `1/b` with respect to `a` and `-a/b²` with respect to `b`;
`pow` records value `a^b` and a binary node with local derivatives
`b·a^b/a` with respect to `a` and `ln(a)·a^b` with respect to `b`. -/
theorem c4_div_pow_derivatives (t : Tape ℝ) (a b : Number ℝ) :
    (divNN t a b).2.val = a.val / b.val
    ∧ (divNN t a b).2.node = t.length
    ∧ ((divNN t a b).1[t.length]?).map (fun m => (m.n, m.ders, m.ptrs))
        = some (2, [1 / b.val, -a.val / b.val ^ 2], [a.node, b.node])
    ∧ (powNN t a b).2.val = Real.rpow a.val b.val
    ∧ (powNN t a b).2.node = t.length
    ∧ ((powNN t a b).1[t.length]?).map (fun m => (m.n, m.ders, m.ptrs))
        = some (2, [b.val * Real.rpow a.val b.val / a.val,
                    Real.log a.val * Real.rpow a.val b.val], [a.node, b.node]) := by
  refine ⟨rfl, rfl, ?_, rfl, rfl, ?_⟩
  · have hd : -a.val * (1 / b.val) * (1 / b.val) = -a.val / b.val ^ 2 := by
      rw [div_eq_mul_inv (-a.val), sq, mul_inv, one_div]
      ring
    simp only [divNN, List.getElem?_concat_length, Option.map_some']
    rw [hd]
  · simp only [powNN, List.getElem?_concat_length, Option.map_some']

/-- C6 as stated is false at `a.value() = 0`: `fabs` applied to a
`Number` of value exactly `0` records local derivative `-1`, not `+1`. -/
theorem c6_fabs_counterexample :
    ((fabsU ([] : Tape ℚ) ⟨0, 0⟩).1[0]?).map Node.ders = some ([-1] : List ℚ)
    ∧ ¬ ((fabsU ([] : Tape ℚ) ⟨0, 0⟩).1[0]?).map Node.ders = some ([1] : List ℚ) := by
  constructor <;> norm_num [fabsU]

/-- C6 amended: `fabs(a)` has value `|a|` and records one unary node
whose argument pointer refers to `a` and whose local derivative is `+1`
when `a.value() > 0` and `-1` when `a.value() ≤ 0` — in particular `-1`
at exactly `0`. -/
theorem c6_fabs_amended (t : Tape K) (a : Number K) :
    (fabsU t a).2.val = |a.val|
    ∧ (fabsU t a).2.node = t.length
    ∧ ((fabsU t a).1[t.length]?).map (fun m => (m.n, m.ders, m.ptrs))
        = some (1, [if 0 < a.val then 1 else -1], [a.node]) := by
  refine ⟨rfl, rfl, ?_⟩
  simp [fabsU, List.getElem?_concat_length]

/-- C10: `double + Number` and `double * Number` delegate exactly to
`Number + double` and `Number * double`; those record one unary node
whose argument-adjoint pointer refers to `a`'s adjoint, with local
derivative `1` for addition and `c` for multiplication, and the result
values agree. -/
theorem c10_double_ops_commute (t : Tape K) (c : K) (a : Number K) :
    addDN t c a = addND t a c
    ∧ mulDN t c a = mulND t a c
    ∧ (addND t a c).2.val = a.val + c
    ∧ (addND t a c).2.node = t.length
    ∧ ((addND t a c).1[t.length]?).map (fun m => (m.n, m.ders, m.ptrs))
        = some (1, [1], [a.node])
    ∧ (mulND t a c).2.val = a.val * c
    ∧ (mulND t a c).2.node = t.length
    ∧ ((mulND t a c).1[t.length]?).map (fun m => (m.n, m.ders, m.ptrs))
        = some (1, [c], [a.node]) := by
  refine ⟨rfl, rfl, rfl, rfl, ?_, rfl, rfl, ?_⟩ <;>
    simp [addND, mulND, List.getElem?_concat_length]

end AAD

namespace AAD

variable {K : Type} [LinearOrderedField K]

theorem propagateOne_of_none {t : Tape K} {idx : Nat} (h : t[idx]? = none) :
    propagateOne t idx = t := by
  unfold propagateOne
  rw [h]

theorem propagateOne_of_some {t : Tape K} {idx : Nat} {nd : Node K}
    (h : t[idx]? = some nd) :
    propagateOne t idx =
      if nd.n = 0 ∨ nd.adj = 0 then t else propLoop idx nd (List.range nd.n) t := by
  unfold propagateOne
  rw [h]

theorem structAt_propagateOne (t : Tape K) (idx q : Nat) :
    ((propagateOne t idx)[q]?).map (fun m => (m.n, m.ders, m.ptrs))
      = (t[q]?).map (fun m => (m.n, m.ders, m.ptrs)) := by
  cases h : t[idx]? with
  | none => rw [propagateOne_of_none h]
  | some nd =>
    rw [propagateOne_of_some h]
    split
    · rfl
    · exact propLoop_structAt idx nd (List.range nd.n) t q

theorem getElem?_setAdj (t : Tape K) (p : Nat) (x : K) (q : Nat) :
    (setAdj t p x)[q]? =
      if q = p then (t[p]?).map (fun m => { m with adj := x }) else t[q]? := by
  unfold setAdj
  split
  · next h =>
    by_cases hq : q = p
    · subst hq; simp [h]
    · simp [hq]
  · next nd h =>
    have hp : p < t.length := by
      by_contra hc
      rw [List.getElem?_eq_none (Nat.le_of_not_lt hc)] at h
      exact Option.noConfusion h
    rw [List.getElem?_set]
    by_cases hq : q = p
    · subst hq; simp [hp, h]
    · have hq' : p ≠ q := fun hh => hq hh.symm
      simp [hq, hq']

theorem adjAt_scaleAdj (c : K) (t : Tape K) (p : Nat) :
    adjAt (scaleAdj c t) p = c * adjAt t p := by
  unfold adjAt scaleAdj
  rw [List.getElem?_map]
  cases t[p]? <;> simp

theorem addAdj_scaleAdj (c : K) (t : Tape K) (p : Nat) (x : K) :
    addAdj (scaleAdj c t) p (c * x) = scaleAdj c (addAdj t p x) := by
  apply List.ext_getElem?
  intro q
  by_cases hq : q = p
  · subst hq
    simp only [scaleAdj, List.getElem?_map, getElem?_addAdj, if_pos rfl]
    cases t[q]? <;> simp [mul_add]
  · simp [scaleAdj, List.getElem?_map, getElem?_addAdj, if_neg hq]

theorem propLoop_scaleAdj (c : K) (idx : Nat) (nd : Node K) (l : List Nat) :
    ∀ t : Tape K,
      propLoop idx { nd with adj := c * nd.adj } l (scaleAdj c t)
        = scaleAdj c (propLoop idx nd l t) := by
  induction l with
  | nil =>
    intro t
    rfl
  | cons i rest ih =>
    intro t
    simp only [propLoop]
    rw [adjAt_scaleAdj, mul_left_comm, addAdj_scaleAdj, ih]

theorem scaleAdj_zero_congr (t1 t2 : Tape K)
    (h : ∀ q : Nat, (t1[q]?).map (fun m => (m.n, m.ders, m.ptrs))
          = (t2[q]?).map (fun m => (m.n, m.ders, m.ptrs))) :
    scaleAdj 0 t1 = scaleAdj 0 t2 := by
  apply List.ext_getElem?
  intro q
  have hq := h q
  simp only [scaleAdj, List.getElem?_map]
  cases h1 : t1[q]? with
  | none =>
    rw [h1] at hq
    cases h2 : t2[q]? with
    | none => rfl
    | some m2 =>
      rw [h2] at hq
      exact Option.noConfusion hq
  | some m1 =>
    rw [h1] at hq
    cases h2 : t2[q]? with
    | none =>
      rw [h2] at hq
      exact Option.noConfusion hq
    | some m2 =>
      rw [h2] at hq
      simp only [Option.map_some', Option.some.injEq, Prod.mk.injEq] at hq ⊢
      obtain ⟨hn, hd, hp⟩ := hq
      cases m1
      cases m2
      simp_all

theorem propagateOne_scaleAdj (c : K) (t : Tape K) (idx : Nat) :
    propagateOne (scaleAdj c t) idx = scaleAdj c (propagateOne t idx) := by
  cases h : t[idx]? with
  | none =>
    have hs : (scaleAdj c t)[idx]? = none := by
      simp [scaleAdj, List.getElem?_map, h]
    rw [propagateOne_of_none hs, propagateOne_of_none h]
  | some nd =>
    have hs : (scaleAdj c t)[idx]? = some { nd with adj := c * nd.adj } := by
      simp [scaleAdj, List.getElem?_map, h]
    rw [propagateOne_of_some hs, propagateOne_of_some h]
    by_cases hn : nd.n = 0
    · simp [hn]
    · by_cases ha : nd.adj = 0
      · simp [hn, ha]
      · by_cases hc : c = 0
        · subst hc
          rw [if_pos (Or.inr (zero_mul nd.adj)), if_neg (by tauto)]
          apply scaleAdj_zero_congr
          intro q
          exact (propLoop_structAt idx nd (List.range nd.n) t q).symm
        · rw [if_neg, if_neg (by tauto)]
          · exact propLoop_scaleAdj c idx nd (List.range nd.n) t
          · push_neg
            exact ⟨hn, mul_ne_zero hc ha⟩

theorem propagateSteps_scaleAdj (c : K) (k : Nat) : ∀ (t : Tape K) (i : Nat),
    propagateSteps k (scaleAdj c t) i = scaleAdj c (propagateSteps k t i) := by
  induction k with
  | zero =>
    intro t i
    rfl
  | succ k ih =>
    intro t i
    simp only [propagateSteps]
    rw [propagateOne_scaleAdj, ih]

theorem setAdj_scaleAdj_seed (t : Tape K) (k : Nat) (c : K)
    (hz : ∀ nd ∈ t, nd.adj = 0) :
    setAdj t k c = scaleAdj c (setAdj t k 1) := by
  apply List.ext_getElem?
  intro q
  by_cases hq : q = k
  · subst hq
    simp only [scaleAdj, List.getElem?_map, getElem?_setAdj, if_pos rfl]
    cases t[q]? <;> simp
  · simp only [scaleAdj, List.getElem?_map, getElem?_setAdj, if_neg hq]
    cases h : t[q]? with
    | none => rfl
    | some m =>
      have hm : m.adj = 0 := hz m (List.getElem?_mem h)
      simp only [Option.map_some', Option.some.injEq]
      cases m
      simp_all

/-- C8: starting from a tape whose adjoints are all zero, seeding the
output node's adjoint to `c` and running the reverse sweep produces, at
every tape position, an adjoint equal to `c` times the one produced by
seeding the same node to `1` and running the same sweep. -/
theorem c8_adjoint_linearity (t : Tape K) (k fromIdx toIdx p : Nat) (c : K)
    (hz : ∀ nd ∈ t, nd.adj = 0) :
    adjAt (propagateAdjoints (setAdj t k c) fromIdx toIdx) p
      = c * adjAt (propagateAdjoints (setAdj t k 1) fromIdx toIdx) p := by
  rw [setAdj_scaleAdj_seed t k c hz]
  unfold propagateAdjoints
  rw [propagateSteps_scaleAdj, adjAt_scaleAdj]

/-- Closed witness for C8 on `demoTape` (all adjoints zero), seeding `5`
at the top node, sweeping from position `2` down to `0`, reading the
leaf's adjoint. -/
theorem c8_adjoint_linearity_witness :
    (∀ nd ∈ demoTape, nd.adj = 0)
    ∧ adjAt (propagateAdjoints (setAdj demoTape 2 5) 2 0) 0
        = 5 * adjAt (propagateAdjoints (setAdj demoTape 2 1) 2 0) 0 :=
  ⟨by decide, c8_adjoint_linearity demoTape 2 2 0 0 5 (by decide)⟩

end AAD

namespace Ctor

/-- C5 as stated is false: `Number::Number() {}` initializes nothing, so
a default-constructed `Number` whose storage previously held value `1`
and node pointer `5` keeps exactly those contents — its value is not `0`
and its node pointer is not null. -/
theorem c5_default_ctor_counterexample :
    (defaultCtor (⟨1, some 5⟩ : RawNumber ℚ) []).1.val ≠ 0
    ∧ (defaultCtor (⟨1, some 5⟩ : RawNumber ℚ) []).1.node ≠ none := by
  constructor <;> decide

/-- C5 amended: the default constructor performs no member
initialization — value and node keep whatever the storage already held —
and writes nothing to the thread tape. -/
theorem c5_default_ctor_amended {K : Type} (pre : RawNumber K) (t : AAD.Tape K) :
    (defaultCtor pre t).1 = pre ∧ (defaultCtor pre t).2 = t :=
  ⟨rfl, rfl⟩

end Ctor

namespace TapeMarks

/-- C7 as stated is false in single-output mode: with `multi = false`,
`Tape::mark()` does not save the cursor of the multi-adjoints block-list
(here its cursor is `5` but the saved mark stays `0`), and
`Tape::rewindToMark()` does not restore its cursor (here the mark is `7`
but the cursor stays `0`). -/
theorem c7_mark_counterexample :
    (TapeSt.mark ⟨false, ⟨5, 0⟩, ⟨1, 0⟩, ⟨2, 0⟩, ⟨3, 0⟩⟩).adjointsMulti.markPos ≠ 5
    ∧ (TapeSt.rewindToMark ⟨false, ⟨0, 7⟩, ⟨1, 1⟩, ⟨2, 2⟩, ⟨3, 3⟩⟩).adjointsMulti.cursor ≠ 7 := by
  constructor <;> decide

/-- C7 amended: `Tape::mark` saves the cursor of the derivatives,
argument-pointer and node block-lists in every mode, and that of the
multi-adjoints block-list exactly when `multi` is on (leaving its mark
untouched otherwise); `Tape::rewindToMark` restores cursors the same
way.  No call moves the cursor it saves or the mark it restores from. -/
theorem c7_mark_amended (t : TapeSt) :
    (t.mark.ders.markPos = t.ders.cursor ∧ t.mark.ders.cursor = t.ders.cursor
     ∧ t.mark.argPtrs.markPos = t.argPtrs.cursor ∧ t.mark.argPtrs.cursor = t.argPtrs.cursor
     ∧ t.mark.nodes.markPos = t.nodes.cursor ∧ t.mark.nodes.cursor = t.nodes.cursor
     ∧ t.mark.adjointsMulti.markPos
         = (if t.multi then t.adjointsMulti.cursor else t.adjointsMulti.markPos)
     ∧ t.mark.adjointsMulti.cursor = t.adjointsMulti.cursor)
    ∧ (t.rewindToMark.ders.cursor = t.ders.markPos
       ∧ t.rewindToMark.ders.markPos = t.ders.markPos
       ∧ t.rewindToMark.argPtrs.cursor = t.argPtrs.markPos
       ∧ t.rewindToMark.argPtrs.markPos = t.argPtrs.markPos
       ∧ t.rewindToMark.nodes.cursor = t.nodes.markPos
       ∧ t.rewindToMark.nodes.markPos = t.nodes.markPos
       ∧ t.rewindToMark.adjointsMulti.cursor
           = (if t.multi then t.adjointsMulti.markPos else t.adjointsMulti.cursor)
       ∧ t.rewindToMark.adjointsMulti.markPos = t.adjointsMulti.markPos) := by
  cases hm : t.multi <;>
    simp [TapeSt.mark, TapeSt.rewindToMark, BlockList.setmark, BlockList.rewindToMark, hm]

end TapeMarks

namespace Refine

theorem abstr_adj (nb : Chap9.Node9) : (abstr nb).adj = nb.adjv := by
  cases nb <;> rfl

theorem abstr_addAdjv (nb : Chap9.Node9) (x : ℝ) :
    abstr (nb.addAdjv x) = { abstr nb with adj := (abstr nb).adj + x } := by
  cases nb <;> rfl

theorem abstr_setAdjv (nb : Chap9.Node9) (x : ℝ) :
    abstr (nb.setAdjv x) = { abstr nb with adj := x } := by
  cases nb <;> rfl

theorem getElem?_abstrT (t : Chap9.Tape9) (q : Nat) :
    (abstrT t)[q]? = (t[q]?).map abstr :=
  List.getElem?_map ..

theorem abstrT_append (t : Chap9.Tape9) (l : List Chap9.Node9) :
    abstrT (t ++ l) = abstrT t ++ l.map abstr := by
  simp [abstrT]

theorem abstrT_length (t : Chap9.Tape9) : (abstrT t).length = t.length :=
  List.length_map ..

theorem adjAt_abstrT (t : Chap9.Tape9) (p : Nat) :
    AAD.adjAt (abstrT t) p = Chap9.adjAt9 t p := by
  unfold AAD.adjAt Chap9.adjAt9
  rw [getElem?_abstrT]
  cases t[p]? <;> simp [abstr_adj]

theorem getElem?_addAdj9 (t : Chap9.Tape9) (p : Nat) (x : ℝ) (q : Nat) :
    (Chap9.addAdj9 t p x)[q]? =
      if q = p then (t[p]?).map (fun m => m.addAdjv x) else t[q]? := by
  unfold Chap9.addAdj9
  split
  · next h =>
    by_cases hq : q = p
    · subst hq; simp [h]
    · simp [hq]
  · next nd h =>
    have hp : p < t.length := by
      by_contra hc
      rw [List.getElem?_eq_none (Nat.le_of_not_lt hc)] at h
      exact Option.noConfusion h
    rw [List.getElem?_set]
    by_cases hq : q = p
    · subst hq; simp [hp, h]
    · have hq' : p ≠ q := fun hh => hq hh.symm
      simp [hq, hq']

theorem getElem?_setAdj9 (t : Chap9.Tape9) (p : Nat) (x : ℝ) (q : Nat) :
    (Chap9.setAdj9 t p x)[q]? =
      if q = p then (t[p]?).map (fun m => m.setAdjv x) else t[q]? := by
  unfold Chap9.setAdj9
  split
  · next h =>
    by_cases hq : q = p
    · subst hq; simp [h]
    · simp [hq]
  · next nd h =>
    have hp : p < t.length := by
      by_contra hc
      rw [List.getElem?_eq_none (Nat.le_of_not_lt hc)] at h
      exact Option.noConfusion h
    rw [List.getElem?_set]
    by_cases hq : q = p
    · subst hq; simp [hp, h]
    · have hq' : p ≠ q := fun hh => hq hh.symm
      simp [hq, hq']

theorem addAdjv_zero (nb : Chap9.Node9) : nb.addAdjv 0 = nb := by
  cases nb <;> simp [Chap9.Node9.addAdjv]

theorem addAdj9_zero (t : Chap9.Tape9) (p : Nat) : Chap9.addAdj9 t p 0 = t := by
  apply List.ext_getElem?
  intro q
  rw [getElem?_addAdj9]
  by_cases hq : q = p
  · subst hq
    cases t[q]? <;> simp [addAdjv_zero]
  · simp [hq]

theorem addAdj_abstrT (t : Chap9.Tape9) (p : Nat) (x : ℝ) :
    AAD.addAdj (abstrT t) p x = abstrT (Chap9.addAdj9 t p x) := by
  apply List.ext_getElem?
  intro q
  simp only [AAD.getElem?_addAdj, getElem?_abstrT, getElem?_addAdj9]
  by_cases hq : q = p
  · subst hq
    simp only [if_pos rfl]
    cases t[q]? <;> simp [abstr_addAdjv]
  · simp [hq]

theorem setAdj_abstrT (t : Chap9.Tape9) (p : Nat) (x : ℝ) :
    AAD.setAdj (abstrT t) p x = abstrT (Chap9.setAdj9 t p x) := by
  apply List.ext_getElem?
  intro q
  simp only [AAD.getElem?_setAdj, getElem?_abstrT, getElem?_setAdj9]
  by_cases hq : q = p
  · subst hq
    simp only [if_pos rfl]
    cases t[q]? <;> simp [abstr_setAdjv]
  · simp [hq]

theorem propagate_abstrT (t : Chap9.Tape9) (idx : Nat) :
    AAD.propagateOne (abstrT t) idx = abstrT (Chap9.propagate9 t idx) := by
  cases h : t[idx]? with
  | none =>
    have hA : (abstrT t)[idx]? = none := by
      rw [getElem?_abstrT, h]
      rfl
    rw [AAD.propagateOne_of_none hA]
    unfold Chap9.propagate9
    rw [h]
  | some nb =>
    have hA : (abstrT t)[idx]? = some (abstr nb) := by
      rw [getElem?_abstrT, h]
      rfl
    have hadj : Chap9.adjAt9 t idx = nb.adjv := by
      unfold Chap9.adjAt9
      rw [h]
      rfl
    rw [AAD.propagateOne_of_some hA]
    unfold Chap9.propagate9
    rw [h]
    cases nb with
    | leaf a =>
      dsimp only [abstr]
      rw [if_pos (Or.inl rfl)]
    | unary p d a =>
      dsimp only [abstr]
      have hadj0 : Chap9.adjAt9 t idx = a := by
        unfold Chap9.adjAt9
        rw [h]
        rfl
      by_cases ha : a = 0
      · subst ha
        rw [if_pos (Or.inr rfl), hadj0, mul_zero, addAdj9_zero]
      · rw [if_neg (by simp [ha])]
        have hr : List.range 1 = [0] := rfl
        rw [hr]
        simp only [AAD.propLoop]
        rw [adjAt_abstrT, addAdj_abstrT]
        rfl
    | binary p0 p1 d0 d1 a =>
      dsimp only [abstr]
      have hadj0 : Chap9.adjAt9 t idx = a := by
        unfold Chap9.adjAt9
        rw [h]
        rfl
      by_cases ha : a = 0
      · subst ha
        rw [if_pos (Or.inr rfl), hadj0, mul_zero, addAdj9_zero, hadj0, mul_zero,
          addAdj9_zero]
      · rw [if_neg (by simp [ha])]
        have hr : List.range 2 = [0, 1] := rfl
        rw [hr]
        simp only [AAD.propLoop]
        rw [adjAt_abstrT, addAdj_abstrT, adjAt_abstrT, addAdj_abstrT]
        rfl

theorem propagateSteps_abstrT (k : Nat) : ∀ (t : Chap9.Tape9) (i : Nat),
    AAD.propagateSteps k (abstrT t) i = abstrT (Chap9.propagateSteps9 k t i) := by
  induction k with
  | zero =>
    intro t i
    rfl
  | succ k ih =>
    intro t i
    simp only [AAD.propagateSteps, Chap9.propagateSteps9]
    rw [propagate_abstrT, ih]

theorem propagateToStart_abstrT (t : Chap9.Tape9) (y : AAD.Number ℝ) :
    AAD.propagateToStart (abstrT t) y = abstrT (Chap9.propagateToStart9 t y) := by
  unfold AAD.propagateToStart Chap9.propagateToStart9
      AAD.propagateAdjoints Chap9.propagateAdjoints9
  rw [setAdj_abstrT, propagateSteps_abstrT]

theorem recordLeaf_abstr (t : Chap9.Tape9) (x : ℝ) :
    AAD.recordLeaf (abstrT t) x
      = (abstrT (Chap9.recordLeaf9 t x).1, (Chap9.recordLeaf9 t x).2) := by
  simp [AAD.recordLeaf, Chap9.recordLeaf9, abstrT_append, abstrT_length, abstr]

theorem addNN_abstr (t : Chap9.Tape9) (l r : AAD.Number ℝ) :
    AAD.addNN (abstrT t) l r
      = (abstrT (Chap9.addNN9 t l r).1, (Chap9.addNN9 t l r).2) := by
  simp [AAD.addNN, Chap9.addNN9, abstrT_append, abstrT_length, abstr]

theorem addND_abstr (t : Chap9.Tape9) (l : AAD.Number ℝ) (c : ℝ) :
    AAD.addND (abstrT t) l c
      = (abstrT (Chap9.addND9 t l c).1, (Chap9.addND9 t l c).2) := by
  simp [AAD.addND, Chap9.addND9, abstrT_append, abstrT_length, abstr]

theorem addDN_abstr (t : Chap9.Tape9) (c : ℝ) (r : AAD.Number ℝ) :
    AAD.addDN (abstrT t) c r
      = (abstrT (Chap9.addDN9 t c r).1, (Chap9.addDN9 t c r).2) :=
  addND_abstr t r c

theorem subNN_abstr (t : Chap9.Tape9) (l r : AAD.Number ℝ) :
    AAD.subNN (abstrT t) l r
      = (abstrT (Chap9.subNN9 t l r).1, (Chap9.subNN9 t l r).2) := by
  simp [AAD.subNN, Chap9.subNN9, abstrT_append, abstrT_length, abstr]

theorem subND_abstr (t : Chap9.Tape9) (l : AAD.Number ℝ) (c : ℝ) :
    AAD.subND (abstrT t) l c
      = (abstrT (Chap9.subND9 t l c).1, (Chap9.subND9 t l c).2) := by
  simp [AAD.subND, Chap9.subND9, abstrT_append, abstrT_length, abstr]

theorem subDN_abstr (t : Chap9.Tape9) (c : ℝ) (r : AAD.Number ℝ) :
    AAD.subDN (abstrT t) c r
      = (abstrT (Chap9.subDN9 t c r).1, (Chap9.subDN9 t c r).2) := by
  simp [AAD.subDN, Chap9.subDN9, abstrT_append, abstrT_length, abstr]

theorem mulNN_abstr (t : Chap9.Tape9) (l r : AAD.Number ℝ) :
    AAD.mulNN (abstrT t) l r
      = (abstrT (Chap9.mulNN9 t l r).1, (Chap9.mulNN9 t l r).2) := by
  simp [AAD.mulNN, Chap9.mulNN9, abstrT_append, abstrT_length, abstr]

theorem mulND_abstr (t : Chap9.Tape9) (l : AAD.Number ℝ) (c : ℝ) :
    AAD.mulND (abstrT t) l c
      = (abstrT (Chap9.mulND9 t l c).1, (Chap9.mulND9 t l c).2) := by
  simp [AAD.mulND, Chap9.mulND9, abstrT_append, abstrT_length, abstr]

theorem mulDN_abstr (t : Chap9.Tape9) (c : ℝ) (r : AAD.Number ℝ) :
    AAD.mulDN (abstrT t) c r
      = (abstrT (Chap9.mulDN9 t c r).1, (Chap9.mulDN9 t c r).2) :=
  mulND_abstr t r c

theorem divNN_abstr (t : Chap9.Tape9) (l r : AAD.Number ℝ) :
    AAD.divNN (abstrT t) l r
      = (abstrT (Chap9.divNN9 t l r).1, (Chap9.divNN9 t l r).2) := by
  simp [AAD.divNN, Chap9.divNN9, abstrT_append, abstrT_length, abstr]

theorem divND_abstr (t : Chap9.Tape9) (l : AAD.Number ℝ) (c : ℝ) :
    AAD.divND (abstrT t) l c
      = (abstrT (Chap9.divND9 t l c).1, (Chap9.divND9 t l c).2) := by
  simp [AAD.divND, Chap9.divND9, abstrT_append, abstrT_length, abstr]

theorem divDN_abstr (t : Chap9.Tape9) (c : ℝ) (r : AAD.Number ℝ) :
    AAD.divDN (abstrT t) c r
      = (abstrT (Chap9.divDN9 t c r).1, (Chap9.divDN9 t c r).2) := by
  simp [AAD.divDN, Chap9.divDN9, abstrT_append, abstrT_length, abstr]

theorem powNN_abstr (t : Chap9.Tape9) (l r : AAD.Number ℝ) :
    AAD.powNN (abstrT t) l r
      = (abstrT (Chap9.powNN9 t l r).1, (Chap9.powNN9 t l r).2) := by
  simp [AAD.powNN, Chap9.powNN9, abstrT_append, abstrT_length, abstr]

theorem powND_abstr (t : Chap9.Tape9) (l : AAD.Number ℝ) (c : ℝ) :
    AAD.powND (abstrT t) l c
      = (abstrT (Chap9.powND9 t l c).1, (Chap9.powND9 t l c).2) := by
  simp [AAD.powND, Chap9.powND9, abstrT_append, abstrT_length, abstr]

theorem powDN_abstr (t : Chap9.Tape9) (c : ℝ) (r : AAD.Number ℝ) :
    AAD.powDN (abstrT t) c r
      = (abstrT (Chap9.powDN9 t c r).1, (Chap9.powDN9 t c r).2) := by
  simp [AAD.powDN, Chap9.powDN9, abstrT_append, abstrT_length, abstr]

theorem maxNN_abstr (t : Chap9.Tape9) (l r : AAD.Number ℝ) :
    AAD.maxNN (abstrT t) l r
      = (abstrT (Chap9.maxNN9 t l r).1, (Chap9.maxNN9 t l r).2) := by
  by_cases h : l.val > r.val
  · simp [AAD.maxNN, Chap9.maxNN9, abstrT_append, abstrT_length, abstr, h,
      max_eq_left (le_of_lt h)]
  · simp [AAD.maxNN, Chap9.maxNN9, abstrT_append, abstrT_length, abstr, h,
      max_eq_right (le_of_not_lt h)]

theorem maxND_abstr (t : Chap9.Tape9) (l : AAD.Number ℝ) (c : ℝ) :
    AAD.maxND (abstrT t) l c
      = (abstrT (Chap9.maxND9 t l c).1, (Chap9.maxND9 t l c).2) := by
  by_cases h : l.val > c
  · simp [AAD.maxND, Chap9.maxND9, abstrT_append, abstrT_length, abstr, h,
      max_eq_left (le_of_lt h)]
  · simp [AAD.maxND, Chap9.maxND9, abstrT_append, abstrT_length, abstr, h,
      max_eq_right (le_of_not_lt h)]

theorem maxDN_abstr (t : Chap9.Tape9) (c : ℝ) (r : AAD.Number ℝ) :
    AAD.maxDN (abstrT t) c r
      = (abstrT (Chap9.maxDN9 t c r).1, (Chap9.maxDN9 t c r).2) := by
  by_cases h : r.val > c
  · simp [AAD.maxDN, Chap9.maxDN9, abstrT_append, abstrT_length, abstr, h,
      max_eq_right (le_of_lt h)]
  · simp [AAD.maxDN, Chap9.maxDN9, abstrT_append, abstrT_length, abstr, h,
      max_eq_left (le_of_not_lt h)]

theorem minNN_abstr (t : Chap9.Tape9) (l r : AAD.Number ℝ) :
    AAD.minNN (abstrT t) l r
      = (abstrT (Chap9.minNN9 t l r).1, (Chap9.minNN9 t l r).2) := by
  by_cases h : l.val < r.val
  · simp [AAD.minNN, Chap9.minNN9, abstrT_append, abstrT_length, abstr, h,
      min_eq_left (le_of_lt h)]
  · simp [AAD.minNN, Chap9.minNN9, abstrT_append, abstrT_length, abstr, h,
      min_eq_right (le_of_not_lt h)]

theorem minND_abstr (t : Chap9.Tape9) (l : AAD.Number ℝ) (c : ℝ) :
    AAD.minND (abstrT t) l c
      = (abstrT (Chap9.minND9 t l c).1, (Chap9.minND9 t l c).2) := by
  by_cases h : l.val < c
  · simp [AAD.minND, Chap9.minND9, abstrT_append, abstrT_length, abstr, h,
      min_eq_left (le_of_lt h)]
  · simp [AAD.minND, Chap9.minND9, abstrT_append, abstrT_length, abstr, h,
      min_eq_right (le_of_not_lt h)]

theorem minDN_abstr (t : Chap9.Tape9) (c : ℝ) (r : AAD.Number ℝ) :
    AAD.minDN (abstrT t) c r
      = (abstrT (Chap9.minDN9 t c r).1, (Chap9.minDN9 t c r).2) := by
  by_cases h : r.val < c
  · simp [AAD.minDN, Chap9.minDN9, abstrT_append, abstrT_length, abstr, h,
      min_eq_right (le_of_lt h)]
  · simp [AAD.minDN, Chap9.minDN9, abstrT_append, abstrT_length, abstr, h,
      min_eq_left (le_of_not_lt h)]

theorem expU_abstr (t : Chap9.Tape9) (a : AAD.Number ℝ) :
    AAD.expU (abstrT t) a
      = (abstrT (Chap9.expU9 t a).1, (Chap9.expU9 t a).2) := by
  simp [AAD.expU, Chap9.expU9, abstrT_append, abstrT_length, abstr]

theorem logU_abstr (t : Chap9.Tape9) (a : AAD.Number ℝ) :
    AAD.logU (abstrT t) a
      = (abstrT (Chap9.logU9 t a).1, (Chap9.logU9 t a).2) := by
  simp [AAD.logU, Chap9.logU9, abstrT_append, abstrT_length, abstr]

theorem sqrtU_abstr (t : Chap9.Tape9) (a : AAD.Number ℝ) :
    AAD.sqrtU (abstrT t) a
      = (abstrT (Chap9.sqrtU9 t a).1, (Chap9.sqrtU9 t a).2) := by
  simp [AAD.sqrtU, Chap9.sqrtU9, abstrT_append, abstrT_length, abstr]

theorem fabsU_abstr (t : Chap9.Tape9) (a : AAD.Number ℝ) :
    AAD.fabsU (abstrT t) a
      = (abstrT (Chap9.fabsU9 t a).1, (Chap9.fabsU9 t a).2) := by
  simp [AAD.fabsU, Chap9.fabsU9, abstrT_append, abstrT_length, abstr]

theorem normalDensU_abstr (t : Chap9.Tape9) (a : AAD.Number ℝ) :
    AAD.normalDensU (abstrT t) a
      = (abstrT (Chap9.normalDensU9 t a).1, (Chap9.normalDensU9 t a).2) := by
  simp [AAD.normalDensU, Chap9.normalDensU9, abstrT_append, abstrT_length, abstr]

theorem normalCdfU_abstr (t : Chap9.Tape9) (a : AAD.Number ℝ) :
    AAD.normalCdfU (abstrT t) a
      = (abstrT (Chap9.normalCdfU9 t a).1, (Chap9.normalCdfU9 t a).2) := by
  simp [AAD.normalCdfU, Chap9.normalCdfU9, abstrT_append, abstrT_length, abstr]

theorem negU_abstr (t : Chap9.Tape9) (a : AAD.Number ℝ) :
    AAD.negU (abstrT t) a
      = (abstrT (Chap9.negU9 t a).1, (Chap9.negU9 t a).2) :=
  subDN_abstr t 0 a

theorem evalAB_abstr (e : Expr) : ∀ (env : List (AAD.Number ℝ)) (t : Chap9.Tape9),
    evalA e env (abstrT t) = (abstrT (evalB e env t).1, (evalB e env t).2) := by
  induction e with
  | leaf x =>
    intro env t
    simp only [evalA, evalB, recordLeaf_abstr]
  | var i =>
    intro env t
    simp only [evalA, evalB]
  | letE b e ihb ihe =>
    intro env t
    simp only [evalA, evalB, ihb, ihe]
  | addNN a b iha ihb =>
    intro env t
    simp only [evalA, evalB, iha, ihb, addNN_abstr]
  | addND a c iha =>
    intro env t
    simp only [evalA, evalB, iha, addND_abstr]
  | addDN c b ihb =>
    intro env t
    simp only [evalA, evalB, ihb, addDN_abstr]
  | subNN a b iha ihb =>
    intro env t
    simp only [evalA, evalB, iha, ihb, subNN_abstr]
  | subND a c iha =>
    intro env t
    simp only [evalA, evalB, iha, subND_abstr]
  | subDN c b ihb =>
    intro env t
    simp only [evalA, evalB, ihb, subDN_abstr]
  | mulNN a b iha ihb =>
    intro env t
    simp only [evalA, evalB, iha, ihb, mulNN_abstr]
  | mulND a c iha =>
    intro env t
    simp only [evalA, evalB, iha, mulND_abstr]
  | mulDN c b ihb =>
    intro env t
    simp only [evalA, evalB, ihb, mulDN_abstr]
  | divNN a b iha ihb =>
    intro env t
    simp only [evalA, evalB, iha, ihb, divNN_abstr]
  | divND a c iha =>
    intro env t
    simp only [evalA, evalB, iha, divND_abstr]
  | divDN c b ihb =>
    intro env t
    simp only [evalA, evalB, ihb, divDN_abstr]
  | powNN a b iha ihb =>
    intro env t
    simp only [evalA, evalB, iha, ihb, powNN_abstr]
  | powND a c iha =>
    intro env t
    simp only [evalA, evalB, iha, powND_abstr]
  | powDN c b ihb =>
    intro env t
    simp only [evalA, evalB, ihb, powDN_abstr]
  | maxNN a b iha ihb =>
    intro env t
    simp only [evalA, evalB, iha, ihb, maxNN_abstr]
  | maxND a c iha =>
    intro env t
    simp only [evalA, evalB, iha, maxND_abstr]
  | maxDN c b ihb =>
    intro env t
    simp only [evalA, evalB, ihb, maxDN_abstr]
  | minNN a b iha ihb =>
    intro env t
    simp only [evalA, evalB, iha, ihb, minNN_abstr]
  | minND a c iha =>
    intro env t
    simp only [evalA, evalB, iha, minND_abstr]
  | minDN c b ihb =>
    intro env t
    simp only [evalA, evalB, ihb, minDN_abstr]
  | expU a iha =>
    intro env t
    simp only [evalA, evalB, iha, expU_abstr]
  | logU a iha =>
    intro env t
    simp only [evalA, evalB, iha, logU_abstr]
  | sqrtU a iha =>
    intro env t
    simp only [evalA, evalB, iha, sqrtU_abstr]
  | fabsU a iha =>
    intro env t
    simp only [evalA, evalB, iha, fabsU_abstr]
  | normalDensU a iha =>
    intro env t
    simp only [evalA, evalB, iha, normalDensU_abstr]
  | normalCdfU a iha =>
    intro env t
    simp only [evalA, evalB, iha, normalCdfU_abstr]
  | negU a iha =>
    intro env t
    simp only [evalA, evalB, iha, negU_abstr]

/-- C9: for every expression over the operator set supported by both
implementations (including let-bound sharing and mixed `Number`/`double`
operands), recording with the argument-pointer implementation and with
the adjoint-pointer implementation on fresh single-output tapes yields
the same output value, and — after seeding the output's adjoint to `1`
and propagating to the start of the tape — the same adjoint at every tape
position, in particular at every leaf. -/
theorem c9_refinement (e : Expr) (j : Nat) :
    (evalA e [] []).2.val = (evalB e [] []).2.val
    ∧ (evalA e [] []).2.node = (evalB e [] []).2.node
    ∧ AAD.adjAt (AAD.propagateToStart (evalA e [] []).1 (evalA e [] []).2) j
        = Chap9.adjAt9 (Chap9.propagateToStart9 (evalB e [] []).1 (evalB e [] []).2) j := by
  have h := evalAB_abstr e [] []
  rw [show abstrT [] = ([] : AAD.Tape ℝ) from rfl] at h
  refine ⟨?_, ?_, ?_⟩
  · rw [h]
  · rw [h]
  · rw [h]
    dsimp only
    rw [propagateToStart_abstrT, adjAt_abstrT]

end Refine
